import Mathlib

/-!
Shallow embedding of the euchre rules engine of this repository
(`src/utils/gameUtils.ts` and `src/reducers/gameReducer.ts`), together with
theorems settling the specification claims about it.

Modelling conventions:
* TypeScript union types become inductives; `Card.id` is the string
  `"${rank}-${suit}"`, which is uniquely determined by the suit/rank pair, so
  id-equality is modelled as equality of the (suit, rank) record.
* `Math.random()` results are modelled as rational draws in `[0,1)` supplied
  through an explicit `Rand` record; each call site consumes its named draw.
* Fields that TypeScript marks optional and reads through truthiness
  (`trump?`, `shouldClearTrick?`, `sittingOut?`) become `Option Suit` and
  `Bool` (for booleans, `undefined` and `false` are observationally equal in
  the source, which only reads them through truthiness).
* `Player.hand` is `Option (List Card)`: the reducer defensively checks
  `!cpu.hand` / `!currentPlayer.hand`, which in JS is true exactly for
  `undefined`/`null` (an empty array is truthy), so `none` models an absent
  hand.
* Array indexing `xs[i]` becomes `List.get?` (with `undefined` as `none`)
  where the source checks the result, and `getD` where the source relies on
  the index being in range.
* Side effects (`toast`, `console`) do not touch the state and are dropped.
-/

namespace Euchre

inductive Suit where
  | hearts | diamonds | spades | clubs
deriving DecidableEq, Repr, Inhabited

inductive Rank where
  | nine | ten | jack | queen | king | ace
deriving DecidableEq, Repr, Inhabited

/-- A card; the source's string `id` is `rank ++ "-" ++ suit` and therefore
carries no information beyond the suit/rank pair. -/
structure Card where
  suit : Suit
  rank : Rank
deriving DecidableEq, Repr, Inhabited

/-- Source `const SUITS: Suit[] = ["hearts", "diamonds", "spades", "clubs"]` -/
def SUITS : List Suit := [.hearts, .diamonds, .spades, .clubs]

/-- Source `const RANKS: Rank[] = ["9", "10", "J", "Q", "K", "A"]` -/
def RANKS : List Rank := [.nine, .ten, .jack, .queen, .king, .ace]

/-- Source `RANKS.indexOf(rank)`, written as a total match (every rank occurs). -/
def rankIndex : Rank → Nat
  | .nine => 0 | .ten => 1 | .jack => 2 | .queen => 3 | .king => 4 | .ace => 5

/-- The unshuffled deck built by `createDeck`'s nested `forEach` loops
(before the final `shuffleDeck` call). -/
def createDeckUnshuffled : List Card :=
  SUITS.flatMap fun s => RANKS.map fun r => ⟨s, r⟩

/-- Computation `Math.floor(q * k)` for a draw `q` and a natural scale `k`,
written on the numerator/denominator representation:
`⌊q * k⌋ = (q.num * k).fdiv q.den` since `q.den > 0`.  (`Rat.mul` is
`@[irreducible]`, so the product is expanded by hand; `floorMulNat_eq_floor`
below proves this equal to the textbook `⌊q * k⌋`.) -/
def floorMulNat (q : ℚ) (k : Nat) : Nat :=
  ((q.num * (k : Int)).fdiv (q.den : Int)).toNat

/-- Swap of the entries at `i` and `j`:
`[newDeck[i], newDeck[j]] = [newDeck[j], newDeck[i]]`.  Both indices are in
range at every call site (the shuffle draws `j ∈ [0, i]`); out-of-range
indices leave the list unchanged. -/
def swapIdx (l : List Card) (i j : Nat) : List Card :=
  if h : i < l.length ∧ j < l.length then
    (l.set i (l.get ⟨j, h.2⟩)).set j (l.get ⟨i, h.1⟩)
  else l

/-- The body of `shuffleDeck`'s loop, counting `i` down from `len - 1` to `1`:
at index `i`, `j = Math.floor(Math.random() * (i + 1))` and entries `i`, `j`
are swapped.  `r i` is the `Math.random()` draw consumed at loop index `i`. -/
def shuffleAux (r : Nat → ℚ) : Nat → List Card → List Card
  | 0, l => l
  | i + 1, l =>
      shuffleAux r i (swapIdx l (i + 1) (floorMulNat (r (i + 1)) (i + 2)))

/-- Source `shuffleDeck` (Fisher–Yates from the end backward). -/
def shuffleDeck (r : Nat → ℚ) (deck : List Card) : List Card :=
  shuffleAux r (deck.length - 1) deck

/-- Source `createDeck`: the 24 suit×rank combinations, then a shuffle. -/
def createDeck (r : Nat → ℚ) : List Card :=
  shuffleDeck r createDeckUnshuffled

/-- Source `shuffledDeck.pop()` iterated `n` times: returns the popped cards in pop
order together with what is left, or `none` if the deck runs out (the
source's `if (!card) return null`). -/
def popN : Nat → List Card → Option (List Card × List Card)
  | 0, d => some ([], d)
  | n + 1, d =>
      match d.getLast? with
      | none => none
      | some c =>
          match popN n d.dropLast with
          | none => none
          | some (cs, d') => some (c :: cs, d')

/-- Source `dealCards`: rejects decks of fewer than 24 cards, then shuffles and pops
5 cards per player for the 4 players (`hands[playerIndex].push(card)` keeps
pop order), returning the hands plus the remaining deck. -/
def dealCards (r : Nat → ℚ) (deck : List Card) :
    Option (List (List Card) × List Card) :=
  if deck.length < 24 then none
  else
    let shuffled := shuffleDeck r deck
    match popN 5 shuffled with
    | none => none
    | some (h0, d0) =>
      match popN 5 d0 with
      | none => none
      | some (h1, d1) =>
        match popN 5 d1 with
        | none => none
        | some (h2, d2) =>
          match popN 5 d2 with
          | none => none
          | some (h3, d3) => some ([h0, h1, h2, h3], d3)

/-- Source `getLeftBowerSuit`: the same-colour partner of the trump suit. -/
def getLeftBowerSuit : Suit → Suit
  | .hearts => .diamonds
  | .diamonds => .hearts
  | .spades => .clubs
  | .clubs => .spades

/-- Source `isTrumpCard` (unused by `determineWinner` in the source, which is the
root of the bower bug, but defined there). -/
def isTrumpCard (card : Card) (trump : Suit) : Bool :=
  if card.suit = trump then true
  else if card.rank = .jack ∧ card.suit = getLeftBowerSuit trump then true
  else false

/-- Source `getEffectiveSuit`: the left bower counts as trump, every other card
keeps its own suit. -/
def getEffectiveSuit (card : Card) (trump : Suit) : Suit :=
  if card.rank = .jack ∧ card.suit = getLeftBowerSuit trump then trump
  else card.suit

/-- Source `isValidPlay`. -/
def isValidPlay (card : Card) (hand : List Card) (trick : List Card)
    (trump : Suit) : Bool :=
  match trick with
  | [] => true
  | leadCard :: _ =>
      let leadSuit := getEffectiveSuit leadCard trump
      let hasSuit := hand.any fun c => getEffectiveSuit c trump = leadSuit
      if hasSuit then getEffectiveSuit card trump = leadSuit
      else true

/-- Source `isWinningCard(card1, card2, trump)`: raw-suit comparison — note it uses
`card.suit === trump` and `RANKS.indexOf`, NOT `getEffectiveSuit` or any
bower-aware value. -/
def isWinningCard (card1 card2 : Card) (trump : Suit) : Bool :=
  if card1.suit = trump ∧ card2.suit ≠ trump then true
  else if card1.suit ≠ trump ∧ card2.suit = trump then false
  else if card1.suit ≠ card2.suit then false
  else rankIndex card1.rank > rankIndex card2.rank

/-- The `for` loop of `determineWinner`, tracking the winning card, its index
and the position `i` of the candidate. -/
def determineWinnerAux (trump : Suit) :
    Card → Nat → List Card → Nat → Nat
  | _, wi, [], _ => wi
  | wc, wi, c :: cs, i =>
      if isWinningCard c wc trump then determineWinnerAux trump c i cs (i + 1)
      else determineWinnerAux trump wc wi cs (i + 1)

/-- Source `determineWinner(trick, trump)`.  On an empty trick the source reads
`trick[0]` as `undefined`, never enters the loop and returns `0`. -/
def determineWinner (trick : List Card) (trump : Suit) : Nat :=
  match trick with
  | [] => 0
  | c0 :: rest => determineWinnerAux trump c0 0 rest 1

/-! ## The game state machine (`src/reducers/gameReducer.ts`) -/

inductive Phase where
  | preGame | dealing | bidding | playing
deriving DecidableEq, Repr, Inhabited

structure Player where
  id : String
  name : String
  hand : Option (List Card)
  isCPU : Bool
  sittingOut : Bool
deriving DecidableEq, Repr, Inhabited

structure GameState where
  deck : List Card
  players : List Player
  currentPlayer : Nat
  dealer : Nat
  trump : Option Suit
  trickCards : List Card
  scores : List Nat
  phase : Phase
  learningMode : Bool
  passCount : Nat
  trumpSelector : Nat
  goingAlone : Bool
  shouldClearTrick : Bool
deriving DecidableEq, Repr

inductive GameAction where
  | startGame
  | deal
  | playCard (card : Card)
  | setTrump (suit : Suit) (goingAlone : Bool)
  | pass
  | toggleLearningMode
  | cpuPlay
  | clearTrick
deriving DecidableEq, Repr

/-- The `Math.random()` draws a single reducer step may consume, one field
per call site; every draw lies in `[0, 1)`. -/
structure Rand where
  deckShuffle : Nat → ℚ
  dealShuffle : Nat → ℚ
  dealerDraw : ℚ
  passDraw : ℚ
  suitDraw : ℚ
  aloneDraw : ℚ
  cardDraw : ℚ

/-- JS `array.map((x, i) => f i x)` starting at index `n`. -/
def mapWithIdxFrom (f : Nat → Player → Player) : Nat → List Player → List Player
  | _, [] => []
  | n, p :: ps => f n p :: mapWithIdxFrom f (n + 1) ps

/-- JS `array.map((x, i) => f i x)`. -/
def mapWithIdx (f : Nat → Player → Player) (l : List Player) : List Player :=
  mapWithIdxFrom f 0 l

/-- Source `initialState` from the source (the `shouldClearTrick?` optional field is
absent there, i.e. falsy). -/
def initialState : GameState where
  deck := []
  players :=
    [⟨"p1", "You", some [], false, false⟩,
     ⟨"p2", "CPU 1", some [], true, false⟩,
     ⟨"p3", "CPU 2", some [], true, false⟩,
     ⟨"p4", "CPU 3", some [], true, false⟩]
  currentPlayer := 0
  dealer := 0
  trump := none
  trickCards := []
  scores := [0, 0]
  phase := .preGame
  learningMode := false
  passCount := 0
  trumpSelector := 0
  goingAlone := false
  shouldClearTrick := false

/-- Source `case "START_GAME"`. -/
def handleStartGame (r : Rand) (s : GameState) : GameState :=
  { initialState with
      phase := .dealing
      dealer := floorMulNat r.dealerDraw 4
      learningMode := s.learningMode }

/-- Source `case "DEAL"`.  `hands[i]` for the player map is `hands.get? i`
(`undefined` past the end, matching the source's unchecked indexing). -/
def handleDeal (r : Rand) (s : GameState) : GameState :=
  let deck := createDeck r.deckShuffle
  match dealCards r.dealShuffle deck with
  | none => { initialState with phase := .preGame }
  | some (hands, remainingDeck) =>
      if hands.length ≠ 4 ∨ hands.any (fun h => h.length ≠ 5) then
        { initialState with phase := .preGame }
      else
        { s with
            deck := remainingDeck
            players := mapWithIdx
              (fun i p => { p with hand := hands.get? i }) s.players
            currentPlayer := (s.dealer + 1) % 4
            phase := .bidding
            passCount := 0 }

/-- Source `case "PASS"`: both branches of the source differ only by a toast. -/
def handlePass (s : GameState) : GameState :=
  { s with
      currentPlayer := (s.currentPlayer + 1) % 4
      passCount := s.passCount + 1 }

/-- Source `case "SET_TRUMP"` (`action.goingAlone || false` is the `ga` argument). -/
def handleSetTrump (s : GameState) (suit : Suit) (ga : Bool) : GameState :=
  let partner := (s.currentPlayer + 2) % 4
  { s with
      trump := some suit
      trumpSelector := s.currentPlayer
      phase := .playing
      currentPlayer := (s.dealer + 1) % 4
      goingAlone := ga
      players := mapWithIdx
        (fun i p => { p with sittingOut := ga && i = partner })
        s.players }

/-- The `while (state.goingAlone && state.players[nextPlayer].sittingOut)`
advance loop.  At most one seat ever sits out, so the loop runs at most one
iteration; it is modelled with fuel 4 (a state where all four seats sat out
would make the source spin forever, and a missing seat would throw). -/
def nextActiveFrom (s : GameState) : Nat → Nat → Nat
  | 0, n => n
  | fuel + 1, n =>
      if s.goingAlone &&
          (((s.players.get? n).map Player.sittingOut).getD false) then
        nextActiveFrom s fuel ((n + 1) % 4)
      else n

/-- Source `case "PLAY_CARD"`. -/
def handlePlayCard (s : GameState) (card : Card) : GameState :=
  match s.trump with
  | none => s
  | some trump =>
    match s.players.get? s.currentPlayer with
    | none => s
    | some currentPlayer =>
      match currentPlayer.hand with
      | none => s
      | some hand =>
        if currentPlayer.sittingOut then s
        else
          let newHand := hand.filter fun c => c ≠ card
          let newTrickCards := s.trickCards ++ [card]
          let s1 := { s with
            players := s.players.map fun (p : Player) =>
              if p.id = currentPlayer.id then { p with hand := some newHand }
              else p
            trickCards := newTrickCards
            shouldClearTrick := false }
          if newTrickCards.length = (if s.goingAlone then 3 else 4) then
            -- `(state.currentPlayer - (newTrickCards.length - 1) + 4) % 4`,
            -- reassociated so the ℕ subtraction cannot underflow
            let firstPlayerOfTrick :=
              (s.currentPlayer + 4 - (newTrickCards.length - 1)) % 4
            let winningCardPosition := determineWinner newTrickCards trump
            let trickWinner := (firstPlayerOfTrick + winningCardPosition) % 4
            let newScores := s.scores.set (trickWinner % 2)
              ((s.scores.getD (trickWinner % 2) 0) + 1)
            { s1 with
                scores := newScores
                currentPlayer := trickWinner
                shouldClearTrick := true }
          else
            { s1 with
                currentPlayer := nextActiveFrom s 4 ((s.currentPlayer + 1) % 4) }

/-- Source `case "CPU_PLAY"`.  The source's recursive `gameReducer(state, …)` calls
are realised through the corresponding handler functions, which are
definitionally what the recursive call computes. -/
def handleCpuPlay (r : Rand) (s : GameState) : GameState :=
  match s.players.get? s.currentPlayer with
  | none => s
  | some cpu =>
    if !cpu.isCPU then s
    else
      match cpu.hand with
      | none => s
      | some hand =>
        if s.shouldClearTrick then s
        else if cpu.sittingOut then s
        else if s.phase = .bidding then
          -- `Math.random() > 0.3`, with `0.3 = mkRat 3 10`
          let shouldPass := r.passDraw > mkRat 3 10
          if shouldPass && s.currentPlayer ≠ s.dealer then handlePass s
          else
            -- `suits[Math.floor(Math.random() * suits.length)]`; the index is
            -- in `[0, 3]` for every draw in `[0, 1)`
            let randomSuit := SUITS.getD (floorMulNat r.suitDraw 4) .hearts
            -- `Math.random() > 0.8`, with `0.8 = mkRat 4 5`
            let goingAlone := r.aloneDraw > mkRat 4 5
            handleSetTrump s randomSuit goingAlone
        else
          match s.trump with
          | none => s
          | some trump =>
            let playableCards := hand.filter fun c =>
              isValidPlay c hand s.trickCards trump
            if playableCards.length = 0 then s
            else
              -- `playableCards[Math.floor(Math.random() * length)]`; in range
              -- for every draw in `[0, 1)` since the list is non-empty
              let cardToPlay := playableCards.getD
                (floorMulNat r.cardDraw playableCards.length)
                ⟨.hearts, .nine⟩
              handlePlayCard s cardToPlay

/-- Source `case "CLEAR_TRICK"`.  `p.hand.length === 0` requires a present hand (an
absent hand would throw in the source and is unreachable); `none` counts as
non-empty here. -/
def handleClearTrick (s : GameState) : GameState :=
  let allHandsEmpty := s.players.all fun p =>
    match p.hand with
    | some l => l.length = 0
    | none => false
  if allHandsEmpty then
    { s with
        phase := .dealing
        trickCards := []
        shouldClearTrick := false
        dealer := (s.dealer + 1) % 4 }
  else
    { s with trickCards := [], shouldClearTrick := false }

/-- Source `gameReducer`.  The defensive `!state || !Array.isArray(state.players)`
reset cannot fire in the typed model (the players field is always a list). -/
def gameReducer (r : Rand) (s : GameState) (a : GameAction) : GameState :=
  match a with
  | .startGame => handleStartGame r s
  | .toggleLearningMode => { s with learningMode := !s.learningMode }
  | .deal => handleDeal r s
  | .pass => handlePass s
  | .setTrump suit ga => handleSetTrump s suit ga
  | .playCard card => handlePlayCard s card
  | .cpuPlay => handleCpuPlay r s
  | .clearTrick => handleClearTrick s

/-! ## Derived notions used by the claims -/

/-- An all-zero family of random draws, used to instantiate concrete runs. -/
def rand0 : Rand := ⟨fun _ => 0, fun _ => 0, 0, 0, 0, 0, 0⟩

/-- Number of cards a player holds (an absent hand holds none). -/
def handSize (p : Player) : Nat :=
  match p.hand with
  | some l => l.length
  | none => 0

/-- Total number of cards tracked by a state: all hands + deck + trick. -/
def cardTotal (s : GameState) : Nat :=
  (s.players.map handSize).sum + s.deck.length + s.trickCards.length

/-! ## Concrete states and runs used by the claims -/

/-- A playing-phase state whose current player (seat 0) holds 9♥ and 9♠ and
must follow the hearts lead A♥ (trump clubs): playing 9♠ fails
`isValidPlay`. -/
def c2State : GameState :=
  { initialState with
      phase := Phase.playing
      trump := some .clubs
      currentPlayer := 0
      trickCards := [⟨.hearts, .ace⟩]
      players :=
        [⟨"p1", "You", some [⟨.hearts, .nine⟩, ⟨.spades, .nine⟩], false, false⟩,
         ⟨"p2", "CPU 1", some [⟨.clubs, .nine⟩, ⟨.clubs, .ten⟩], true, false⟩,
         ⟨"p3", "CPU 2", some [⟨.diamonds, .nine⟩, ⟨.diamonds, .ten⟩], true, false⟩,
         ⟨"p4", "CPU 3", some [⟨.spades, .king⟩, ⟨.spades, .ace⟩], true, false⟩] }

/-- A going-alone trick: seat 2 sits out, seat 1 led A♥, seat 3 followed
with 9♠, and seat 0 now plays the third and final card 9♣ (trump hearts). -/
def c3State : GameState :=
  { initialState with
      phase := Phase.playing
      trump := some .hearts
      goingAlone := true
      dealer := 0
      currentPlayer := 0
      trickCards := [⟨.hearts, .ace⟩, ⟨.spades, .nine⟩]
      players :=
        [⟨"p1", "You", some [⟨.clubs, .nine⟩], false, false⟩,
         ⟨"p2", "CPU 1", some [⟨.clubs, .king⟩], true, false⟩,
         ⟨"p3", "CPU 2",
           some [⟨.diamonds, .nine⟩, ⟨.diamonds, .ten⟩, ⟨.diamonds, .jack⟩,
             ⟨.diamonds, .queen⟩, ⟨.diamonds, .king⟩], true, true⟩,
         ⟨"p4", "CPU 3", some [⟨.clubs, .ten⟩], true, false⟩] }

/-- A going-alone state right after the last (fifth) trick: every active
seat's hand is empty, only the sitting-out partner (seat 2) still holds
cards, and the trick awaits clearing. -/
def c5State : GameState :=
  { initialState with
      phase := Phase.playing
      trump := some .hearts
      goingAlone := true
      dealer := 0
      currentPlayer := 1
      shouldClearTrick := true
      trickCards := [⟨.hearts, .ace⟩, ⟨.spades, .nine⟩, ⟨.clubs, .nine⟩]
      players :=
        [⟨"p1", "You", some [], false, false⟩,
         ⟨"p2", "CPU 1", some [], true, false⟩,
         ⟨"p3", "CPU 2",
           some [⟨.diamonds, .nine⟩, ⟨.diamonds, .ten⟩, ⟨.diamonds, .jack⟩,
             ⟨.diamonds, .queen⟩, ⟨.diamonds, .king⟩], true, true⟩,
         ⟨"p4", "CPU 3", some [], true, false⟩] }

/-- A bidding state after two passes (seats 1 and 2 passed, seat 3 to act),
with the concrete hands dealt by the all-zero shuffle. -/
def c7State : GameState :=
  { initialState with
      phase := Phase.bidding
      dealer := 0
      currentPlayer := 3
      passCount := 2
      deck := [⟨.hearts, .jack⟩, ⟨.hearts, .queen⟩, ⟨.hearts, .king⟩,
        ⟨.hearts, .ace⟩]
      players :=
        [⟨"p1", "You", some [⟨.hearts, .ten⟩, ⟨.hearts, .nine⟩,
            ⟨.clubs, .ace⟩, ⟨.clubs, .king⟩, ⟨.clubs, .queen⟩], false, false⟩,
         ⟨"p2", "CPU 1", some [⟨.clubs, .jack⟩, ⟨.clubs, .ten⟩,
            ⟨.clubs, .nine⟩, ⟨.spades, .ace⟩, ⟨.spades, .king⟩], true, false⟩,
         ⟨"p3", "CPU 2", some [⟨.spades, .queen⟩, ⟨.spades, .jack⟩,
            ⟨.spades, .ten⟩, ⟨.spades, .nine⟩, ⟨.diamonds, .ace⟩], true, false⟩,
         ⟨"p4", "CPU 3", some [⟨.diamonds, .king⟩, ⟨.diamonds, .queen⟩,
            ⟨.diamonds, .jack⟩, ⟨.diamonds, .ten⟩, ⟨.diamonds, .nine⟩], true,
            false⟩] }

/-- A forced-call bidding state: seat 0 is the dealer, is CPU-controlled, and
the three other seats have passed (`passCount = 3`). -/
def c8State : GameState :=
  { initialState with
      phase := Phase.bidding
      dealer := 0
      currentPlayer := 0
      passCount := 3
      deck := [⟨.hearts, .jack⟩, ⟨.hearts, .queen⟩, ⟨.hearts, .king⟩,
        ⟨.hearts, .ace⟩]
      players :=
        [⟨"p1", "CPU 0", some [⟨.hearts, .ten⟩, ⟨.hearts, .nine⟩,
            ⟨.clubs, .ace⟩, ⟨.clubs, .king⟩, ⟨.clubs, .queen⟩], true, false⟩,
         ⟨"p2", "CPU 1", some [⟨.clubs, .jack⟩, ⟨.clubs, .ten⟩,
            ⟨.clubs, .nine⟩, ⟨.spades, .ace⟩, ⟨.spades, .king⟩], true, false⟩,
         ⟨"p3", "CPU 2", some [⟨.spades, .queen⟩, ⟨.spades, .jack⟩,
            ⟨.spades, .ten⟩, ⟨.spades, .nine⟩, ⟨.diamonds, .ace⟩], true, false⟩,
         ⟨"p4", "CPU 3", some [⟨.diamonds, .king⟩, ⟨.diamonds, .queen⟩,
            ⟨.diamonds, .jack⟩, ⟨.diamonds, .ten⟩, ⟨.diamonds, .nine⟩], true,
            false⟩] }

/-- Random draws for the forced call: the going-alone draw 9/10 is a
legitimate `Math.random()` outcome and exceeds the 0.8 threshold. -/
def c8Rand : Rand := ⟨fun _ => 0, fun _ => 0, 0, mkRat 1 2, 0, mkRat 9 10, 0⟩

/-- A complete first trick played out from a real deal (all-zero draws) and
then cleared: DEAL, trump called by seat 1, the four seats play J♣, Q♠, K♦,
A♣ (each from the hand the deal gave that seat; seat 0 follows the club
lead), then the trick-internal CLEAR_TRICK. -/
def c4Run : GameState :=
  List.foldl (gameReducer rand0) initialState
    [.deal, .setTrump .hearts false, .playCard ⟨.clubs, .jack⟩,
     .playCard ⟨.spades, .queen⟩, .playCard ⟨.diamonds, .king⟩,
     .playCard ⟨.clubs, .ace⟩, .clearTrick]

/-- A 20-card deck: the first 20 cards of the canonical 24-card deck. -/
def deck20 : List Card := createDeckUnshuffled.take 20

/-! ## Generic lemmas -/

theorem floorMulNat_eq_floor (q : ℚ) (k : Nat) :
    floorMulNat q k = (⌊q * (k : ℚ)⌋).toNat := by
  have hq : (q.num : ℚ) / (q.den : ℚ) = q := Rat.num_div_den q
  have key : ((q.num * (k : Int) : ℤ) : ℚ) / ((q.den : ℕ) : ℚ) = q * (k : ℚ) := by
    push_cast
    rw [mul_div_right_comm, hq]
  rw [floorMulNat, ← key, Rat.floor_intCast_div_natCast (q.num * (k : Int)) q.den,
    Int.fdiv_eq_ediv _ (Int.ofNat_nonneg q.den)]

theorem get_cons_set_perm :
    ∀ (t : List Card) (k : Nat) (hk : k < t.length) (x : Card),
      List.Perm (t.get ⟨k, hk⟩ :: t.set k x) (x :: t)
  | y :: s, 0, _, x => List.Perm.swap x y s
  | y :: s, k + 1, hk, x => by
      have hk' : k < s.length := Nat.lt_of_succ_lt_succ hk
      have ih := get_cons_set_perm s k hk' x
      show List.Perm (s.get ⟨k, hk'⟩ :: y :: s.set k x) (x :: y :: s)
      have h1 : List.Perm (s.get ⟨k, hk'⟩ :: y :: s.set k x)
          (y :: s.get ⟨k, hk'⟩ :: s.set k x) := List.Perm.swap y _ _
      have h2 : List.Perm (y :: s.get ⟨k, hk'⟩ :: s.set k x) (y :: x :: s) :=
        List.Perm.cons y ih
      exact (h1.trans h2).trans (List.Perm.swap x y s)

theorem set_set_perm :
    ∀ (l : List Card) (i j : Nat) (hi : i < l.length) (hj : j < l.length),
      List.Perm ((l.set i (l.get ⟨j, hj⟩)).set j (l.get ⟨i, hi⟩)) l
  | x :: t, 0, 0, _, _ => by simp
  | x :: t, 0, j + 1, hi, hj => by
      have h := get_cons_set_perm t j (Nat.lt_of_succ_lt_succ hj) x
      simpa using h
  | x :: t, i + 1, 0, hi, hj => by
      have h := get_cons_set_perm t i (Nat.lt_of_succ_lt_succ hi) x
      simpa using h
  | x :: t, i + 1, j + 1, hi, hj => by
      have ih := set_set_perm t i j (Nat.lt_of_succ_lt_succ hi)
        (Nat.lt_of_succ_lt_succ hj)
      simpa using List.Perm.cons x ih

theorem swapIdx_perm (l : List Card) (i j : Nat) :
    List.Perm (swapIdx l i j) l := by
  unfold swapIdx
  split
  · next h => exact set_set_perm l i j h.1 h.2
  · exact List.Perm.refl l

theorem shuffleAux_perm (r : Nat → ℚ) :
    ∀ (n : Nat) (l : List Card), List.Perm (shuffleAux r n l) l
  | 0, l => List.Perm.refl l
  | n + 1, l =>
      (shuffleAux_perm r n _).trans (swapIdx_perm l (n + 1) _)

theorem shuffleDeck_perm (r : Nat → ℚ) (deck : List Card) :
    List.Perm (shuffleDeck r deck) deck :=
  shuffleAux_perm r _ deck

theorem shuffleDeck_length (r : Nat → ℚ) (deck : List Card) :
    (shuffleDeck r deck).length = deck.length :=
  (shuffleDeck_perm r deck).length_eq

theorem createDeck_perm (r : Nat → ℚ) :
    List.Perm (createDeck r) createDeckUnshuffled :=
  shuffleDeck_perm r createDeckUnshuffled

theorem createDeck_length (r : Nat → ℚ) : (createDeck r).length = 24 := by
  rw [(createDeck_perm r).length_eq]
  rfl

theorem popN_spec :
    ∀ (n : Nat) (d : List Card), n ≤ d.length →
      ∃ cs d', popN n d = some (cs, d') ∧ cs.length = n ∧
        d'.length + n = d.length ∧ List.Perm (cs ++ d') d
  | 0, d, _ => ⟨[], d, rfl, rfl, rfl, List.Perm.refl d⟩
  | n + 1, d, h => by
      have hne : d ≠ [] := by
        intro hnil
        rw [hnil] at h
        exact Nat.not_succ_le_zero n h
      have hlast : d.getLast? = some (d.getLast hne) :=
        List.getLast?_eq_getLast d hne
      have hdrop : d.dropLast.length = d.length - 1 := List.length_dropLast d
      have hn : n ≤ d.dropLast.length := by
        rw [hdrop]
        omega
      obtain ⟨cs, d', heq, hlen, hlen', hperm⟩ := popN_spec n d.dropLast hn
      refine ⟨d.getLast hne :: cs, d', ?_, ?_, ?_, ?_⟩
      · rw [popN, hlast, heq]
      · simp only [List.length_cons, hlen]
      · omega
      · have h1 : List.Perm (d.getLast hne :: (cs ++ d'))
            (d.getLast hne :: d.dropLast) := List.Perm.cons _ hperm
        have h2 : List.Perm (d.getLast hne :: d.dropLast)
            (d.dropLast ++ [d.getLast hne]) :=
          (List.perm_append_singleton _ _).symm
        have h3 : List.Perm (d.dropLast ++ [d.getLast hne]) d := by
          rw [List.dropLast_append_getLast hne]
        exact (h1.trans h2).trans h3

theorem dealCards_spec (r : Nat → ℚ) (deck : List Card) :
    (deck.length < 24 → dealCards r deck = none) ∧
    (24 ≤ deck.length →
      ∃ hands rem, dealCards r deck = some (hands, rem) ∧
        hands.length = 4 ∧ (∀ h ∈ hands, h.length = 5) ∧
        List.Perm (hands.flatten ++ rem) deck) := by
  constructor
  · intro h
    rw [dealCards, if_pos h]
  · intro h
    have hnot : ¬ deck.length < 24 := Nat.not_lt.mpr h
    have hs : (shuffleDeck r deck).length = deck.length :=
      shuffleDeck_length r deck
    obtain ⟨h0, d0, e0, l0, l0', p0⟩ := popN_spec 5 (shuffleDeck r deck) (by omega)
    obtain ⟨h1, d1, e1, l1, l1', p1⟩ := popN_spec 5 d0 (by omega)
    obtain ⟨h2, d2, e2, l2, l2', p2⟩ := popN_spec 5 d1 (by omega)
    obtain ⟨h3, d3, e3, l3, l3', p3⟩ := popN_spec 5 d2 (by omega)
    refine ⟨[h0, h1, h2, h3], d3, ?_, rfl, ?_, ?_⟩
    · rw [dealCards, if_neg hnot]
      simp only [e0, e1, e2, e3]
    · intro h hmem
      simp only [List.mem_cons, List.not_mem_nil, or_false] at hmem
      rcases hmem with rfl | rfl | rfl | rfl
      · exact l0
      · exact l1
      · exact l2
      · exact l3
    · have step3 : List.Perm (h3 ++ d3) d2 := p3
      have step2 : List.Perm (h2 ++ (h3 ++ d3)) d1 :=
        ((List.Perm.append_left h2 step3)).trans p2
      have step1 : List.Perm (h1 ++ (h2 ++ (h3 ++ d3))) d0 :=
        ((List.Perm.append_left h1 step2)).trans p1
      have step0 : List.Perm (h0 ++ (h1 ++ (h2 ++ (h3 ++ d3))))
          (shuffleDeck r deck) :=
        ((List.Perm.append_left h0 step1)).trans p0
      have : [h0, h1, h2, h3].flatten ++ d3
          = h0 ++ (h1 ++ (h2 ++ (h3 ++ d3))) := by
        simp [List.append_assoc]
      rw [this]
      exact step0.trans (shuffleDeck_perm r deck)

theorem mapWithIdxFrom_get? (f : Nat → Player → Player) :
    ∀ (l : List Player) (n i : Nat),
      (mapWithIdxFrom f n l).get? i = (l.get? i).map (f (n + i))
  | [], n, i => by simp [mapWithIdxFrom]
  | p :: ps, n, 0 => by simp [mapWithIdxFrom]
  | p :: ps, n, i + 1 => by
      have h : n + (i + 1) = (n + 1) + i := by omega
      simp only [mapWithIdxFrom, List.get?_cons_succ,
        mapWithIdxFrom_get? f ps (n + 1) i, h]

theorem mapWithIdx_get? (f : Nat → Player → Player) (l : List Player) (i : Nat) :
    (mapWithIdx f l).get? i = (l.get? i).map (f i) := by
  rw [mapWithIdx, mapWithIdxFrom_get?]
  simp

theorem mapWithIdxFrom_handSize (f : Nat → Player → Player)
    (hf : ∀ i p, (f i p).hand = p.hand) :
    ∀ (n : Nat) (l : List Player),
      ((mapWithIdxFrom f n l).map handSize).sum = (l.map handSize).sum
  | _, [] => rfl
  | n, p :: ps => by
      have ih := mapWithIdxFrom_handSize f hf (n + 1) ps
      simp only [mapWithIdxFrom, List.map_cons, List.sum_cons, ih]
      congr 1
      simp [handSize, hf n p]

/-- If no element of `t` satisfies the predicate, the conditional update map
is the identity. -/
theorem map_ite_id_of_not_mem (cpid : String) (g : Player → Player) :
    ∀ (t : List Player),
      (∀ p ∈ t, p.id ≠ cpid) →
      t.map (fun p => if p.id = cpid then g p else p) = t
  | [], _ => rfl
  | a :: t, h => by
      have ha : a.id ≠ cpid := h a (by simp)
      rw [List.map_cons, if_neg ha,
        map_ite_id_of_not_mem cpid g t (fun p hp => h p (by simp [hp]))]

/-- Updating the hand of the unique player whose id matches shifts the total
hand count by exactly that player's hand difference. -/
theorem sum_handSize_update (cp : Player) (newHand : List Card) :
    ∀ (l : List Player),
      l.filter (fun p => p.id = cp.id) = [cp] →
      ((l.map (fun p => if p.id = cp.id then { p with hand := some newHand }
          else p)).map handSize).sum + handSize cp
        = (l.map handSize).sum + newHand.length
  | [], h => by cases h
  | a :: t, h => by
      by_cases ha : a.id = cp.id
      · rw [List.filter_cons, if_pos (by simpa using ha)] at h
        injection h with hacp htail
        subst hacp
        have htail' : ∀ p ∈ t, p.id ≠ a.id := by simpa using htail
        rw [List.map_cons, List.map_cons, List.map_cons, List.sum_cons,
          List.sum_cons, if_pos ha,
          map_ite_id_of_not_mem a.id
            (fun p => { p with hand := some newHand }) t htail']
        simp only [handSize]
        omega
      · rw [List.filter_cons, if_neg (by simpa using ha)] at h
        have ih := sum_handSize_update cp newHand t h
        simp only [List.map_cons, List.sum_cons, if_neg ha]
        omega

/-! ## Claim C1 -/

/-- Claim C1 (refuted, code bug): the claim demands that `determineWinner` be
bower-aware and, with trump hearts and the trick [9♦ led, 9♠, A♦, J♦], return
index 3 (the left bower J♦).  The implementation compares raw suits and raw
rank indices only — even though the code's own `getEffectiveSuit` classifies
J♦ as a hearts (trump) card — so A♦ wins and the function returns index 2. -/
theorem determineWinner_left_bower_loses :
    determineWinner
        [⟨.diamonds, .nine⟩, ⟨.spades, .nine⟩, ⟨.diamonds, .ace⟩,
          ⟨.diamonds, .jack⟩] .hearts = 2 ∧
      getEffectiveSuit ⟨.diamonds, .jack⟩ .hearts = .hearts ∧
      isTrumpCard ⟨.diamonds, .jack⟩ .hearts = true := by
  decide

/-! ## Claim C9 -/

/-- Claim C9 (confirmed): `isValidPlay` accepts every card when the trick is
empty; when the trick is non-empty and the hand holds a card whose effective
suit matches the lead card's effective suit, it accepts a card iff the card's
own effective suit matches the lead's; when the hand holds no such card it
accepts every card. -/
theorem isValidPlay_follow_suit_rule (card : Card) (hand trick : List Card)
    (trump : Suit) :
    (trick = [] → isValidPlay card hand trick trump = true) ∧
    (∀ lead rest, trick = lead :: rest →
      (∃ c ∈ hand, getEffectiveSuit c trump = getEffectiveSuit lead trump) →
      (isValidPlay card hand trick trump = true ↔
        getEffectiveSuit card trump = getEffectiveSuit lead trump)) ∧
    (∀ lead rest, trick = lead :: rest →
      (∀ c ∈ hand, getEffectiveSuit c trump ≠ getEffectiveSuit lead trump) →
      isValidPlay card hand trick trump = true) := by
  refine ⟨?_, ?_, ?_⟩
  · intro h
    subst h
    rfl
  · intro lead rest h hex
    subst h
    have hany : (hand.any fun c =>
        getEffectiveSuit c trump = getEffectiveSuit lead trump) = true := by
      rw [List.any_eq_true]
      obtain ⟨c, hc, he⟩ := hex
      exact ⟨c, hc, by simp [he]⟩
    simp [isValidPlay, hany]
  · intro lead rest h hall
    subst h
    have hany : (hand.any fun c =>
        getEffectiveSuit c trump = getEffectiveSuit lead trump) = false := by
      rw [List.any_eq_false]
      intro c hc
      simp [hall c hc]
    simp [isValidPlay, hany]

/-- Witness for C9: a concrete lead into a non-empty trick where the hand can
follow suit, evaluated through the theorem. -/
theorem isValidPlay_follow_suit_rule_witness :
    isValidPlay ⟨.hearts, .nine⟩ [⟨.hearts, .nine⟩, ⟨.spades, .ace⟩]
        [⟨.hearts, .king⟩] .clubs = true :=
  ((isValidPlay_follow_suit_rule ⟨.hearts, .nine⟩
      [⟨.hearts, .nine⟩, ⟨.spades, .ace⟩] [⟨.hearts, .king⟩] .clubs).2.1
    ⟨.hearts, .king⟩ [] rfl
    ⟨⟨.hearts, .nine⟩, by decide, by decide⟩).mpr (by decide)

/-! ## Claim C10 -/

/-- Helper: the `CPU_PLAY` guard returns the state unchanged whenever any of
its disjuncts is satisfied for the current player. -/
theorem handleCpuPlay_noop (r : Rand) (s : GameState) (cpu : Player)
    (hget : s.players.get? s.currentPlayer = some cpu)
    (h : cpu.isCPU = false ∨ cpu.sittingOut = true ∨ cpu.hand = none ∨
      s.shouldClearTrick = true) :
    handleCpuPlay r s = s := by
  unfold handleCpuPlay
  rw [hget]
  cases hc : cpu.isCPU with
  | false => simp [hc]
  | true =>
    cases hh : cpu.hand with
    | none => simp [hc, hh]
    | some hand =>
      cases hclear : s.shouldClearTrick with
      | true => simp [hc, hh, hclear]
      | false =>
        have hsit : cpu.sittingOut = true := by
          rcases h with h | h | h | h
          · rw [hc] at h
            cases h
          · exact h
          · rw [hh] at h
            cases h
          · rw [hclear] at h
            cases h
        simp [hc, hh, hclear, hsit]

/-- Claim C10 (confirmed): `CPU_PLAY` leaves the state unchanged whenever the
current player is not CPU-controlled, or is sitting out, or has no hand
(`!cpu.hand`, i.e. an absent hand), or the awaiting-clear flag
`shouldClearTrick` is set — a CPU re-entry in any of those situations plays
no card and makes no bid. -/
theorem cpuPlay_noop_on_guard (r : Rand) (s : GameState) :
    (∀ cpu, s.players.get? s.currentPlayer = some cpu → cpu.isCPU = false →
      gameReducer r s .cpuPlay = s) ∧
    (∀ cpu, s.players.get? s.currentPlayer = some cpu → cpu.sittingOut = true →
      gameReducer r s .cpuPlay = s) ∧
    (∀ cpu, s.players.get? s.currentPlayer = some cpu → cpu.hand = none →
      gameReducer r s .cpuPlay = s) ∧
    (s.shouldClearTrick = true → gameReducer r s .cpuPlay = s) := by
  refine ⟨?_, ?_, ?_, ?_⟩
  · intro cpu hget hcpu
    exact handleCpuPlay_noop r s cpu hget (Or.inl hcpu)
  · intro cpu hget hsit
    exact handleCpuPlay_noop r s cpu hget (Or.inr (Or.inl hsit))
  · intro cpu hget hhand
    exact handleCpuPlay_noop r s cpu hget (Or.inr (Or.inr (Or.inl hhand)))
  · intro hclear
    cases hget : s.players.get? s.currentPlayer with
    | none =>
      show handleCpuPlay r s = s
      unfold handleCpuPlay
      rw [hget]
    | some cpu =>
      exact handleCpuPlay_noop r s cpu hget (Or.inr (Or.inr (Or.inr hclear)))

/-- Witness for C10: in the initial state the current player (seat 0) is
human, so a `CPU_PLAY` re-entry changes nothing. -/
theorem cpuPlay_noop_on_guard_witness :
    gameReducer rand0 initialState .cpuPlay = initialState :=
  (cpuPlay_noop_on_guard rand0 initialState).1
    ⟨"p1", "You", some [], false, false⟩ rfl rfl

/-! ## PLAY_CARD helper lemmas (shared by several claims) -/

theorem handlePlayCard_trump_none {s : GameState} (card : Card)
    (ht : s.trump = none) : handlePlayCard s card = s := by
  unfold handlePlayCard
  rw [ht]

theorem handlePlayCard_no_seat {s : GameState} (card : Card)
    (hget : s.players.get? s.currentPlayer = none) :
    handlePlayCard s card = s := by
  unfold handlePlayCard
  cases ht : s.trump with
  | none => rfl
  | some t => rw [hget]

theorem handlePlayCard_no_hand {s : GameState} (card : Card) {cp : Player}
    (hget : s.players.get? s.currentPlayer = some cp) (hhand : cp.hand = none) :
    handlePlayCard s card = s := by
  unfold handlePlayCard
  cases ht : s.trump with
  | none => rfl
  | some t =>
    rw [hget]
    dsimp only
    rw [hhand]

theorem handlePlayCard_sitting_out {s : GameState} (card : Card) {cp : Player}
    (hget : s.players.get? s.currentPlayer = some cp)
    (hsit : cp.sittingOut = true) : handlePlayCard s card = s := by
  unfold handlePlayCard
  cases ht : s.trump with
  | none => rfl
  | some t =>
    rw [hget]
    dsimp only
    cases hh : cp.hand with
    | none => rfl
    | some hand =>
      dsimp only
      rw [if_pos hsit]

/-- When no guard fires, `PLAY_CARD` filters the card out of the acting
player's hand, appends it to the trick, and leaves the deck alone. -/
theorem handlePlayCard_effect {s : GameState} (card : Card) {t : Suit}
    {cp : Player} {hand : List Card} (ht : s.trump = some t)
    (hget : s.players.get? s.currentPlayer = some cp)
    (hhand : cp.hand = some hand) (hsit : cp.sittingOut = false) :
    (handlePlayCard s card).players =
        s.players.map (fun p => if p.id = cp.id then
          { p with hand := some (hand.filter fun c => c ≠ card) } else p) ∧
      (handlePlayCard s card).trickCards = s.trickCards ++ [card] ∧
      (handlePlayCard s card).deck = s.deck := by
  unfold handlePlayCard
  rw [ht]
  dsimp only
  rw [hget]
  dsimp only
  rw [hhand]
  dsimp only
  rw [if_neg (by rw [hsit]; exact Bool.false_ne_true)]
  refine ⟨?_, ?_, ?_⟩ <;> (split <;> split <;> rfl)

theorem cardTotal_handlePass (s : GameState) :
    cardTotal (handlePass s) = cardTotal s := rfl

theorem cardTotal_handleSetTrump (s : GameState) (suit : Suit) (ga : Bool) :
    cardTotal (handleSetTrump s suit ga) = cardTotal s := by
  unfold handleSetTrump cardTotal mapWithIdx
  dsimp only
  rw [mapWithIdxFrom_handSize
    (fun i p => { p with sittingOut := ga && i = (s.currentPlayer + 2) % 4 })
    (fun i p => rfl) 0 s.players]

/-- Every copy of a card, plus what survives the id-filter, accounts for the
whole hand. -/
theorem length_filter_ne (card : Card) :
    ∀ (l : List Card),
      (l.filter fun c => c ≠ card).length + l.count card = l.length
  | [] => rfl
  | c :: t => by
      have ih := length_filter_ne card t
      simp only [ne_eq, decide_not] at ih
      by_cases hc : c = card
      · subst hc
        simp only [List.filter_cons, List.count_cons]
        simp
        omega
      · simp only [List.filter_cons, List.count_cons]
        simp [hc]
        omega

/-- `PLAY_CARD` preserves the card total provided the acting player's id is
unique and the played card occurs exactly once in the acting hand. -/
theorem cardTotal_handlePlayCard {s : GameState} (card : Card) {cp : Player}
    {hand : List Card} (hget : s.players.get? s.currentPlayer = some cp)
    (hhand : cp.hand = some hand)
    (hfilter : s.players.filter (fun p => p.id = cp.id) = [cp])
    (hcount : hand.count card = 1) :
    cardTotal (handlePlayCard s card) = cardTotal s := by
  cases ht : s.trump with
  | none => rw [handlePlayCard_trump_none card ht]
  | some t =>
    cases hsit : cp.sittingOut with
    | true => rw [handlePlayCard_sitting_out card hget hsit]
    | false =>
      obtain ⟨hpl, htr, hdk⟩ := handlePlayCard_effect card ht hget hhand hsit
      unfold cardTotal
      rw [hpl, htr, hdk]
      have hsum := sum_handSize_update cp (hand.filter fun c => c ≠ card)
        s.players hfilter
      have hflen := length_filter_ne card hand
      have hcp : handSize cp = hand.length := by
        simp [handSize, hhand]
      rw [hcp] at hsum
      simp only [List.length_append, List.length_cons, List.length_nil]
      omega

/-! ## Claim C2 -/



/-- Counterexample to C2: the played 9♠ fails `isValidPlay` against the
hearts lead, yet `PLAY_CARD` applies it anyway — the reducer never calls
`isValidPlay`, so the state changes (the card is appended to the trick and
removed from the hand). -/
theorem playCard_accepts_invalid_play :
    isValidPlay ⟨.spades, .nine⟩ [⟨.hearts, .nine⟩, ⟨.spades, .nine⟩]
        [⟨.hearts, .ace⟩] .clubs = false ∧
      gameReducer rand0 c2State (.playCard ⟨.spades, .nine⟩) ≠ c2State ∧
      (gameReducer rand0 c2State (.playCard ⟨.spades, .nine⟩)).trickCards =
        [⟨.hearts, .ace⟩, ⟨.spades, .nine⟩] ∧
      ((gameReducer rand0 c2State (.playCard ⟨.spades, .nine⟩)).players.get? 0).map
          Player.hand = some (some [⟨.hearts, .nine⟩]) := by
  decide

/-- Claim C2 (amended): `PLAY_CARD` rejects — leaves the state unchanged —
iff trump is unset, the acting seat is missing or has no hand, or the acting
seat is sitting out; it does NOT consult `isValidPlay` (the UI checks
legality before dispatching).  When no guard fires it removes every
id-match of the card from the acting hand and appends the card to the
trick. -/
theorem playCard_guards_and_effect (r : Rand) (s : GameState) (card : Card) :
    (s.trump = none → gameReducer r s (.playCard card) = s) ∧
    (s.players.get? s.currentPlayer = none →
      gameReducer r s (.playCard card) = s) ∧
    (∀ cp, s.players.get? s.currentPlayer = some cp → cp.hand = none →
      gameReducer r s (.playCard card) = s) ∧
    (∀ cp, s.players.get? s.currentPlayer = some cp → cp.sittingOut = true →
      gameReducer r s (.playCard card) = s) ∧
    (∀ t cp hand, s.trump = some t →
      s.players.get? s.currentPlayer = some cp → cp.hand = some hand →
      cp.sittingOut = false →
      (gameReducer r s (.playCard card)).players =
          s.players.map (fun p => if p.id = cp.id then
            { p with hand := some (hand.filter fun c => c ≠ card) } else p) ∧
        (gameReducer r s (.playCard card)).trickCards =
          s.trickCards ++ [card]) := by
  refine ⟨?_, ?_, ?_, ?_, ?_⟩
  · intro ht
    exact handlePlayCard_trump_none card ht
  · intro hget
    exact handlePlayCard_no_seat card hget
  · intro cp hget hhand
    exact handlePlayCard_no_hand card hget hhand
  · intro cp hget hsit
    exact handlePlayCard_sitting_out card hget hsit
  · intro t cp hand ht hget hhand hsit
    exact ⟨(handlePlayCard_effect card ht hget hhand hsit).1,
      (handlePlayCard_effect card ht hget hhand hsit).2.1⟩

/-- Witness for C2 (amended): applying the acceptance clause at the concrete
`c2State`. -/
theorem playCard_guards_and_effect_witness :
    (gameReducer rand0 c2State (.playCard ⟨.spades, .nine⟩)).players =
        c2State.players.map (fun p =>
          if p.id = "p1" then
            { p with hand := some ([⟨.hearts, .nine⟩, ⟨.spades, .nine⟩].filter
                fun c => c ≠ ⟨.spades, .nine⟩) }
          else p) ∧
      (gameReducer rand0 c2State (.playCard ⟨.spades, .nine⟩)).trickCards =
        c2State.trickCards ++ [⟨.spades, .nine⟩] :=
  (playCard_guards_and_effect rand0 c2State ⟨.spades, .nine⟩).2.2.2.2
    .clubs ⟨"p1", "You", some [⟨.hearts, .nine⟩, ⟨.spades, .nine⟩], false, false⟩
    [⟨.hearts, .nine⟩, ⟨.spades, .nine⟩] rfl rfl rfl rfl

/-! ## Claim C3 -/



/-- Claim C3 (refuted, code bug): the trick does resolve at exactly 3 cards,
but the trick-local-index → seat mapping `(currentPlayer - (len-1) + 4) % 4`
assumes consecutive seats and does not skip the sitting-out seat.  Here seat
1 led and wins with A♥ (winning index 0), yet the code computes
`firstPlayerOfTrick = 2` and awards the trick — and the lead of the next
trick — to seat 2, the seat that is sitting out, crediting team 0 instead of
team 1. -/
theorem playCard_awards_trick_to_sitting_out_seat :
    c3State.goingAlone = true ∧
      (c3State.players.get? 2).map Player.sittingOut = some true ∧
      (gameReducer rand0 c3State (.playCard ⟨.clubs, .nine⟩)).trickCards.length
        = 3 ∧
      (gameReducer rand0 c3State (.playCard ⟨.clubs, .nine⟩)).shouldClearTrick
        = true ∧
      (gameReducer rand0 c3State (.playCard ⟨.clubs, .nine⟩)).currentPlayer
        = 2 ∧
      (gameReducer rand0 c3State (.playCard ⟨.clubs, .nine⟩)).scores
        = [1, 0] := by
  decide

/-! ## Claim C5 -/

/-- Claim C5 (refuted, code bug): `CLEAR_TRICK` does empty the trick and
lower the awaiting-clear flag, but its hand-over test is
`players.every(p => p.hand.length === 0)` over ALL seats, not the active
ones.  With every active hand empty and the sitting-out partner still
holding 5 cards, the dealer is not rotated and the phase stays `playing` —
the hand never rolls over (the claim requires dealer 1 and phase dealing
here). -/
theorem clearTrick_ignores_sitting_out_rollover :
    ((c5State.players.filter fun p => !p.sittingOut).all
        fun p => p.hand == some []) = true ∧
      (gameReducer rand0 c5State .clearTrick).trickCards = [] ∧
      (gameReducer rand0 c5State .clearTrick).shouldClearTrick = false ∧
      (gameReducer rand0 c5State .clearTrick).phase = Phase.playing ∧
      (gameReducer rand0 c5State .clearTrick).dealer = 0 := by
  decide

/-! ## Claim C7 -/



/-- Counterexample to C7: `SET_TRUMP` from a bidding state with pass counter
2 leaves the counter at 2 — the reducer's `SET_TRUMP` branch never touches
`passCount` (the claim requires it to be reset to 0). -/
theorem setTrump_keeps_passCount_cex :
    c7State.phase = Phase.bidding ∧ c7State.passCount = 2 ∧
      (gameReducer rand0 c7State (.setTrump .hearts false)).passCount = 2 := by
  decide

/-- Claim C7 (amended): `SET_TRUMP(suit, goingAlone)` records the trump suit
and the calling seat, sets phase to playing, hands the lead to the seat left
of the dealer, marks exactly the caller's partner `(caller+2) % 4` as sitting
out iff `goingAlone` — but leaves the pass counter unchanged (it is reset
only by the next `DEAL`). -/
theorem setTrump_spec (r : Rand) (s : GameState) (suit : Suit) (ga : Bool)
    (_hphase : s.phase = Phase.bidding) :
    (gameReducer r s (.setTrump suit ga)).trump = some suit ∧
    (gameReducer r s (.setTrump suit ga)).trumpSelector = s.currentPlayer ∧
    (gameReducer r s (.setTrump suit ga)).phase = Phase.playing ∧
    (gameReducer r s (.setTrump suit ga)).currentPlayer = (s.dealer + 1) % 4 ∧
    (gameReducer r s (.setTrump suit ga)).passCount = s.passCount ∧
    (gameReducer r s (.setTrump suit ga)).goingAlone = ga ∧
    (∀ i p, s.players.get? i = some p →
      (gameReducer r s (.setTrump suit ga)).players.get? i =
        some { p with sittingOut := ga && i = (s.currentPlayer + 2) % 4 }) := by
  refine ⟨rfl, rfl, rfl, rfl, rfl, rfl, ?_⟩
  intro i p hp
  show (handleSetTrump s suit ga).players.get? i = _
  unfold handleSetTrump
  dsimp only
  rw [mapWithIdx_get?, hp]
  rfl

/-- Witness for C7 (amended): applied at `c7State` with trump hearts and a
going-alone call by seat 3, whose partner is seat `(3+2) % 4 = 1`. -/
theorem setTrump_spec_witness :
    (gameReducer rand0 c7State (.setTrump .hearts true)).trump = some .hearts ∧
      (gameReducer rand0 c7State (.setTrump .hearts true)).players.get? 1 =
        some ⟨"p2", "CPU 1", some [⟨.clubs, .jack⟩, ⟨.clubs, .ten⟩,
          ⟨.clubs, .nine⟩, ⟨.spades, .ace⟩, ⟨.spades, .king⟩], true, true⟩ :=
  ⟨(setTrump_spec rand0 c7State .hearts true rfl).1,
    (setTrump_spec rand0 c7State .hearts true rfl).2.2.2.2.2.2 1
      ⟨"p2", "CPU 1", some [⟨.clubs, .jack⟩, ⟨.clubs, .ten⟩,
        ⟨.clubs, .nine⟩, ⟨.spades, .ace⟩, ⟨.spades, .king⟩], true, false⟩ rfl⟩

/-! ## Claim C8 -/



/-- Counterexample to C8: under the forced dealer call the automated bidder
does set trump (it never passes), but `goingAlone` is drawn from the same
`Math.random() > 0.8` coin as any other CPU call — with the in-range draw
9/10 the forced call goes alone, contradicting the claim that going alone is
never chosen under a forced call. -/
theorem cpu_forced_call_goes_alone_cex :
    c8State.phase = Phase.bidding ∧
      c8State.currentPlayer = c8State.dealer ∧
      (c8State.players.get? 0).map Player.isCPU = some true ∧
      ((0 : ℚ) ≤ mkRat 9 10 ∧ mkRat 9 10 < 1) ∧
      (gameReducer c8Rand c8State .cpuPlay).trump = some .hearts ∧
      (gameReducer c8Rand c8State .cpuPlay).phase = Phase.playing ∧
      (gameReducer c8Rand c8State .cpuPlay).goingAlone = true := by
  decide

/-- Claim C8 (amended): in a bidding state where the acting seat is the
dealer, is CPU-controlled, has a hand, is not sitting out and no trick is
awaiting clearing, `CPU_PLAY` always sets trump (the automated dealer never
passes) and moves to the playing phase — but `goingAlone` is true exactly
when the going-alone draw exceeds 0.8, so a forced call may still go
alone. -/
theorem cpu_dealer_forced_call_sets_trump (r : Rand) (s : GameState)
    (cpu : Player) (hand : List Card)
    (hget : s.players.get? s.currentPlayer = some cpu)
    (hcpu : cpu.isCPU = true) (hhand : cpu.hand = some hand)
    (hclear : s.shouldClearTrick = false) (hsit : cpu.sittingOut = false)
    (hphase : s.phase = Phase.bidding)
    (hdealer : s.currentPlayer = s.dealer) :
    (gameReducer r s .cpuPlay).trump =
        some (SUITS.getD (floorMulNat r.suitDraw 4) .hearts) ∧
      (gameReducer r s .cpuPlay).phase = Phase.playing ∧
      ((gameReducer r s .cpuPlay).goingAlone = true ↔
        mkRat 4 5 < r.aloneDraw) := by
  have hred : gameReducer r s .cpuPlay =
      handleSetTrump s (SUITS.getD (floorMulNat r.suitDraw 4) .hearts)
        (decide (mkRat 4 5 < r.aloneDraw)) := by
    show handleCpuPlay r s = _
    unfold handleCpuPlay
    rw [hget]
    dsimp only
    rw [hcpu, hhand, hclear, hsit, hphase]
    simp [hdealer]
  rw [hred]
  refine ⟨rfl, rfl, ?_⟩
  show decide (mkRat 4 5 < r.aloneDraw) = true ↔ _
  exact decide_eq_true_iff

/-- Witness for C8 (amended): the forced call at `c8State` with all-zero
draws calls hearts without going alone. -/
theorem cpu_dealer_forced_call_sets_trump_witness :
    (gameReducer rand0 c8State .cpuPlay).trump =
        some (SUITS.getD (floorMulNat (0 : ℚ) 4) .hearts) ∧
      (gameReducer rand0 c8State .cpuPlay).phase = Phase.playing ∧
      ((gameReducer rand0 c8State .cpuPlay).goingAlone = true ↔
        mkRat 4 5 < (0 : ℚ)) :=
  cpu_dealer_forced_call_sets_trump rand0 c8State
    ⟨"p1", "CPU 0", some [⟨.hearts, .ten⟩, ⟨.hearts, .nine⟩,
      ⟨.clubs, .ace⟩, ⟨.clubs, .king⟩, ⟨.clubs, .queen⟩], true, false⟩
    [⟨.hearts, .ten⟩, ⟨.hearts, .nine⟩, ⟨.clubs, .ace⟩, ⟨.clubs, .king⟩,
      ⟨.clubs, .queen⟩] rfl rfl rfl rfl rfl rfl rfl

/-! ## Claim C4 -/



set_option maxRecDepth 40000 in
/-- Counterexample to C4: the card total is 24 right up to the completed
trick, but the trick-internal `CLEAR_TRICK` simply discards the four trick
cards (there is no discard pile in the state), dropping the total to 20
while the hand continues — the total is not invariantly 24 within a hand. -/
theorem cardTotal_not_invariant :
    cardTotal (List.foldl (gameReducer rand0) initialState
        [.deal, .setTrump .hearts false, .playCard ⟨.clubs, .jack⟩,
         .playCard ⟨.spades, .queen⟩, .playCard ⟨.diamonds, .king⟩,
         .playCard ⟨.clubs, .ace⟩]) = 24 ∧
      cardTotal c4Run = 20 ∧ c4Run.phase = Phase.playing := by
  decide

theorem list_length_eq_four {α : Type} {l : List α} (h : l.length = 4) :
    ∃ a b c d, l = [a, b, c, d] := by
  cases l with
  | nil => cases h
  | cons a l1 =>
    cases l1 with
    | nil => cases h
    | cons b l2 =>
      cases l2 with
      | nil => cases h
      | cons c l3 =>
        cases l3 with
        | nil => cases h
        | cons d l4 =>
          cases l4 with
          | nil => exact ⟨a, b, c, d, rfl⟩
          | cons e l5 =>
            exfalso
            simp only [List.length_cons] at h
            omega

theorem floorMulNat_lt (q : ℚ) (k : Nat) (_h0 : 0 ≤ q) (h1 : q < 1)
    (hk : 0 < k) : floorMulNat q k < k := by
  rw [floorMulNat_eq_floor]
  have hklt : q * (k : ℚ) < (k : ℚ) := by
    have hkpos : (0 : ℚ) < (k : ℚ) := by exact_mod_cast hk
    calc q * (k : ℚ) < 1 * (k : ℚ) := mul_lt_mul_of_pos_right h1 hkpos
      _ = (k : ℚ) := one_mul _
  have hfl : ⌊q * (k : ℚ)⌋ < (k : ℤ) := Int.floor_lt.mpr (by push_cast; exact hklt)
  omega

/-- Claim C4 (amended): `DEAL` (from a 4-seat state with an empty trick)
establishes a card total of 24; `PASS` and `SET_TRUMP` preserve the total;
`PLAY_CARD` preserves it provided the played card occurs exactly once in the
acting hand (and the acting seat's id is unique); `CPU_PLAY` preserves it
under the same uniqueness conditions for in-range draws; but each
`CLEAR_TRICK` decreases the total by the size of the cleared trick, so the
24-card invariant holds only until the first trick is cleared, not
throughout the hand. -/
theorem cardTotal_evolution (r : Rand) (s : GameState) :
    (cardTotal (gameReducer r s .pass) = cardTotal s) ∧
    (∀ suit ga, cardTotal (gameReducer r s (.setTrump suit ga)) = cardTotal s) ∧
    (∀ card cp hand, s.players.get? s.currentPlayer = some cp →
      cp.hand = some hand →
      s.players.filter (fun p => p.id = cp.id) = [cp] →
      hand.count card = 1 →
      cardTotal (gameReducer r s (.playCard card)) = cardTotal s) ∧
    (∀ cp hand, s.players.get? s.currentPlayer = some cp →
      cp.hand = some hand →
      s.players.filter (fun p => p.id = cp.id) = [cp] →
      hand.Nodup →
      (0 : ℚ) ≤ r.cardDraw → r.cardDraw < 1 →
      cardTotal (gameReducer r s .cpuPlay) = cardTotal s) ∧
    (cardTotal (gameReducer r s .clearTrick) =
      cardTotal s - s.trickCards.length) ∧
    (s.players.length = 4 → s.trickCards = [] →
      cardTotal (gameReducer r s .deal) = 24) := by
  refine ⟨cardTotal_handlePass s, fun suit ga => cardTotal_handleSetTrump s suit ga,
    ?_, ?_, ?_, ?_⟩
  · intro card cp hand hget hhand hfilter hcount
    exact cardTotal_handlePlayCard card hget hhand hfilter hcount
  · intro cp hand hget hhand hfilter hnodup h0 h1
    show cardTotal (handleCpuPlay r s) = cardTotal s
    unfold handleCpuPlay
    rw [hget]
    dsimp only
    cases hcpu : cp.isCPU with
    | false => simp
    | true =>
      rw [hhand]
      dsimp only
      cases hclear : s.shouldClearTrick with
      | true => simp
      | false =>
        cases hsit : cp.sittingOut with
        | true => simp
        | false =>
          simp only [Bool.not_true, Bool.false_eq_true, if_false,
            if_true]
          by_cases hphase : s.phase = Phase.bidding
          · rw [if_pos hphase]
            split
            · exact cardTotal_handlePass s
            · exact cardTotal_handleSetTrump s _ _
          · rw [if_neg hphase]
            cases htr : s.trump with
            | none => rfl
            | some t =>
              dsimp only
              split
              · rfl
              · next hne =>
                set playable :=
                  hand.filter (fun c => isValidPlay c hand s.trickCards t)
                  with hpl
                have hpos : 0 < playable.length := Nat.pos_of_ne_zero hne
                have hidx : floorMulNat r.cardDraw playable.length <
                    playable.length :=
                  floorMulNat_lt r.cardDraw playable.length h0 h1 hpos
                have hmem : playable.getD
                    (floorMulNat r.cardDraw playable.length)
                    ⟨.hearts, .nine⟩ ∈ playable := by
                  rw [List.getD_eq_get?, List.get?_eq_get hidx]
                  exact List.get_mem playable _ hidx
                have hmem' : playable.getD
                    (floorMulNat r.cardDraw playable.length)
                    ⟨.hearts, .nine⟩ ∈ hand := List.mem_of_mem_filter hmem
                exact cardTotal_handlePlayCard _ hget hhand hfilter
                  (List.count_eq_one_of_mem hnodup hmem')
  · show cardTotal (handleClearTrick s) = cardTotal s - s.trickCards.length
    unfold handleClearTrick
    dsimp only
    split <;> (unfold cardTotal; dsimp only; simp only [List.length_nil]; omega)
  · intro h4 htrick
    show cardTotal (handleDeal r s) = 24
    obtain ⟨hands, rem, heq, hlen4, hlen5, hperm⟩ :=
      (dealCards_spec r.dealShuffle (createDeck r.deckShuffle)).2
        (by rw [createDeck_length])
    unfold handleDeal
    dsimp only
    rw [heq]
    dsimp only
    have hguard : ¬(hands.length ≠ 4 ∨
        (hands.any fun h => h.length ≠ 5) = true) := by
      rintro (hbad | hbad)
      · exact hbad hlen4
      · rw [List.any_eq_true] at hbad
        obtain ⟨x, hx, hxb⟩ := hbad
        have := hlen5 x hx
        simp [this] at hxb
    rw [if_neg hguard]
    obtain ⟨g0, g1, g2, g3, rfl⟩ := list_length_eq_four hlen4
    obtain ⟨p0, p1, p2, p3, hpl⟩ := list_length_eq_four h4
    have e0 : g0.length = 5 := hlen5 g0 (by simp)
    have e1 : g1.length = 5 := hlen5 g1 (by simp)
    have e2 : g2.length = 5 := hlen5 g2 (by simp)
    have e3 : g3.length = 5 := hlen5 g3 (by simp)
    have hrem : rem.length = 4 := by
      have := hperm.length_eq
      rw [createDeck_length] at this
      simp only [List.length_append, List.flatten] at this
      simp only [List.length_append, List.length_nil] at this
      omega
    unfold cardTotal
    dsimp only
    rw [hpl, htrick]
    simp only [mapWithIdx, mapWithIdxFrom, List.map_cons, List.map_nil,
      List.sum_cons, List.sum_nil, handSize]
    simp only [List.get?]
    rw [hrem]
    simp only [List.length_nil]
    omega

/-- Witness for C4 (amended): `DEAL` from the initial state yields total
24. -/
theorem cardTotal_evolution_witness :
    cardTotal (gameReducer rand0 initialState .deal) = 24 :=
  (cardTotal_evolution rand0 initialState).2.2.2.2.2 rfl rfl

/-! ## Claim C6 -/



/-- Counterexample to C6: the claim says a 20-card deck suffices, but
`dealCards` rejects every deck with fewer than 24 cards
(`if (!deck || deck.length < 24) return null`). -/
theorem dealCards_rejects_twenty_cards :
    deck20.length = 20 ∧ dealCards (fun _ => 0) deck20 = none := by
  decide

/-- Claim C6 (amended): `dealCards` fails deterministically on every deck
with fewer than 24 cards (in particular on any deck of 20..23 cards, which
the claim said should succeed), and on every deck with at least 24 cards it
deals 4 hands of exactly 5 cards whose multiset union with the remainder is
exactly the input deck. -/
theorem dealCards_conservation (r : Nat → ℚ) (deck : List Card) :
    (deck.length < 24 → dealCards r deck = none) ∧
    (24 ≤ deck.length →
      ∃ hands rem, dealCards r deck = some (hands, rem) ∧
        hands.length = 4 ∧ (∀ h ∈ hands, h.length = 5) ∧
        List.Perm (hands.flatten ++ rem) deck) :=
  dealCards_spec r deck

/-- Witness for C6 (amended): dealing the canonical 24-card deck succeeds
and conserves it. -/
theorem dealCards_conservation_witness :
    ∃ hands rem,
      dealCards (fun _ => 0) createDeckUnshuffled = some (hands, rem) ∧
        hands.length = 4 ∧ (∀ h ∈ hands, h.length = 5) ∧
        List.Perm (hands.flatten ++ rem) createDeckUnshuffled :=
  (dealCards_conservation (fun _ => 0) createDeckUnshuffled).2 (by decide)

end Euchre
